import Mathlib

/-!
Shallow embedding, in Lean 4, of the terminal-UI core of the TaskManager
repository: the key decoder of src/libterm.py, the widget framework of
src/libtui.py (IntInput, DateInput, VerticalList, TUIScreen focus and
directional navigation, ConfirmationDialog and AlertDialog), the
navigation stack of src/lista_de_tarefas.py (TodoApp), and the
dialog-hosting screen src/listselectionscreen.py.

Python classes become structures, mutating methods become functions from
state to state, and methods whose truthy/falsy return value matters
return the new state paired with a Bool ("consumed").  Side effects on
collaborators (terminal writes, screen pushes, persistence) are recorded
in explicit event lists.  Python integers are Int; Python `%` on a
positive divisor agrees with Int.emod, which is what `%` denotes here.
Display-only state (rendered text, styles) is not modelled.
-/

namespace Spec2Proof

-- Symbolic key tokens, from class Keys of src/libterm.py.
namespace Keys

def UP : String := "UP_ARROW"

def DOWN : String := "DOWN_ARROW"

def LEFT : String := "LEFT_ARROW"

def RIGHT : String := "RIGHT_ARROW"

def F1 : String := "F1"

def F2 : String := "F2"

def F3 : String := "F3"

def F4 : String := "F4"

def F5 : String := "F5"

def F6 : String := "F6"

def F7 : String := "F7"

def F8 : String := "F8"

def F9 : String := "F9"

def F10 : String := "F10"

def F11 : String := "F11"

def F12 : String := "F12"

def HOME : String := "HOME"

def END : String := "END"

def PAGE_UP : String := "PAGE_UP"

def PAGE_DOWN : String := "PAGE_DOWN"

def INSERT : String := "INSERT"

def DELETE : String := "DELETE"

def ESC : String := "ESC"

def TAB : String := "TAB"

def SHIFT_TAB : String := "SHIFT_TAB"

def ENTER : String := "ENTER"

def BACKSPACE : String := "BACKSPACE"

def SPACE : String := " "

end Keys

/-- The known-escape-sequence table of Terminal.__init__ (src/libterm.py,
lines 90-100), as an association list in source order. -/
def escape_sequences : List (String × String) :=
  [("\x1b[A", Keys.UP), ("\x1b[B", Keys.DOWN), ("\x1b[C", Keys.RIGHT), ("\x1b[D", Keys.LEFT),
   ("\x1b[Z", Keys.SHIFT_TAB),
   ("\x1bOA", Keys.UP), ("\x1bOB", Keys.DOWN), ("\x1bOC", Keys.RIGHT), ("\x1bOD", Keys.LEFT),
   ("\x1bOP", Keys.F1), ("\x1bOQ", Keys.F2), ("\x1bOR", Keys.F3), ("\x1bOS", Keys.F4),
   ("\x1b[15~", Keys.F5), ("\x1b[17~", Keys.F6), ("\x1b[18~", Keys.F7), ("\x1b[19~", Keys.F8),
   ("\x1b[20~", Keys.F9), ("\x1b[21~", Keys.F10), ("\x1b[23~", Keys.F11), ("\x1b[24~", Keys.F12),
   ("\x1b[H", Keys.HOME), ("\x1b[F", Keys.END), ("\x1b[1~", Keys.HOME), ("\x1b[4~", Keys.END),
   ("\x1bOH", Keys.HOME), ("\x1bOF", Keys.END), ("\x1b[5~", Keys.PAGE_UP), ("\x1b[6~", Keys.PAGE_DOWN),
   ("\x1b[2~", Keys.INSERT), ("\x1b[3~", Keys.DELETE)]

/-- Resolution of a fully accumulated escape sequence in Terminal.read_key
(src/libterm.py, lines 208-209): a bare escape byte resolves to the ESC
token, a known sequence to its symbolic token, and an unknown sequence is
returned verbatim. -/
def read_key_escape (sequence : String) : String :=
  if sequence = "\x1b" then Keys.ESC
  else ((escape_sequences.lookup sequence).getD sequence)

/-- Terminal.read_key on Linux (src/libterm.py, lines 193-214), as a function
of the first byte read and the continuation bytes accumulated by the
non-blocking reads that follow an escape introducer. -/
def read_key (ch : Char) (continuation : String) : String :=
  if ch = '\x1b' then read_key_escape (String.mk (ch :: continuation.data))
  else if ch = '\x7f' then Keys.BACKSPACE
  else if ch = '\n' then Keys.ENTER
  else if ch = '\t' then Keys.TAB
  else String.mk [ch]

/-- C4: the key decoder yields UP for ESC [ A, F5 for ESC [ 1 5 ~, returns an
unknown accumulated sequence such as ESC [ 9 9 ~ verbatim as raw text (it is
total, so it never fails and never drops input), and resolves a bare escape
byte with no continuation to the ESC token. -/
theorem read_key_decodes_sequences :
    read_key '\x1b' "[A" = Keys.UP ∧
    read_key '\x1b' "[15~" = Keys.F5 ∧
    read_key '\x1b' "[99~" = "\x1b[99~" ∧
    (∀ sequence : String, sequence ≠ "\x1b" →
      escape_sequences.lookup sequence = none →
      read_key_escape sequence = sequence) ∧
    read_key '\x1b' "" = Keys.ESC := by
  refine ⟨by decide, by decide, by decide, ?_, by decide⟩
  intro sequence hne hlk
  simp [read_key_escape, hne, hlk]

/-- Witness for C4: the generic unknown-sequence clause applied to the
concrete sequence ESC [ 9 9 ~. -/
theorem read_key_decodes_sequences_witness :
    read_key_escape "\x1b[99~" = "\x1b[99~" :=
  read_key_decodes_sequences.2.2.2.1 "\x1b[99~" (by decide) (by decide)

/-- State of the IntInput widget (src/libtui.py, lines 771-856).  The field
being_edited embeds the Python attribute _being_edited; the rendered text and
format string are display-only and not modelled. -/
structure IntInput where
  value : Int
  min : Option Int
  max : Option Int
  is_focused : Bool
  being_edited : Bool
deriving DecidableEq

/-- IntInput.process_input (src/libtui.py, lines 819-856): in Edit mode UP
increments and clamps to max, DOWN decrements and clamps to min, ENTER/ESC
leave Edit mode, and every other key is consumed; in Browse mode only ENTER
(entering Edit mode) is consumed. -/
def IntInput.process_input (w : IntInput) (key : String) : IntInput × Bool :=
  if w.is_focused = false then (w, false)
  else if w.being_edited then
    if key = Keys.UP then
      let value := w.value + 1
      let value :=
        match w.max with
        | some m => if value > m then m else value
        | none => value
      ({ w with value := value }, true)
    else if key = Keys.DOWN then
      let value := w.value - 1
      let value :=
        match w.min with
        | some m => if value < m then m else value
        | none => value
      ({ w with value := value }, true)
    else if key = Keys.ENTER ∨ key = Keys.ESC then
      ({ w with being_edited := false }, true)
    else (w, true)
  else
    if key = Keys.ENTER then ({ w with being_edited := true }, true)
    else (w, false)

/-- Counterexample to C1: a focused IntInput in Edit mode with min = 0 and
max = 5, holding value 5, keeps value 5 on UP instead of wrapping to min 0;
symmetrically, at value 0 it keeps 0 on DOWN instead of wrapping to max 5. -/
theorem intinput_up_at_max_does_not_wrap :
    (IntInput.process_input ⟨5, some 0, some 5, true, true⟩ Keys.UP).1.value = 5 ∧
    (IntInput.process_input ⟨5, some 0, some 5, true, true⟩ Keys.UP).1.value ≠ 0 ∧
    (IntInput.process_input ⟨0, some 0, some 5, true, true⟩ Keys.DOWN).1.value = 0 ∧
    (IntInput.process_input ⟨0, some 0, some 5, true, true⟩ Keys.DOWN).1.value ≠ 5 := by
  decide

/-- C1 amended: for every focused IntInput in Edit mode, UP increments the
value and clamps it to the configured max (so at value = max it stays at
max), and DOWN decrements the value and clamps it to the configured min (so
at value = min it stays at min); there is no wraparound. -/
theorem intinput_edit_clamps (w : IntInput)
    (hf : w.is_focused = true) (he : w.being_edited = true) :
    (∀ m : Int, w.max = some m →
      (IntInput.process_input w Keys.UP).1.value =
        if w.value + 1 > m then m else w.value + 1) ∧
    (∀ m : Int, w.min = some m →
      (IntInput.process_input w Keys.DOWN).1.value =
        if w.value - 1 < m then m else w.value - 1) ∧
    (∀ m : Int, w.max = some m → w.value = m →
      (IntInput.process_input w Keys.UP).1.value = m) ∧
    (∀ m : Int, w.min = some m → w.value = m →
      (IntInput.process_input w Keys.DOWN).1.value = m) := by
  have hdu : ¬ (Keys.DOWN = Keys.UP) := by decide
  refine ⟨?_, ?_, ?_, ?_⟩
  · intro m hm
    simp [IntInput.process_input, hf, he, hm]
  · intro m hm
    simp [IntInput.process_input, hf, he, hm, hdu]
  · intro m hm hv
    simp [IntInput.process_input, hf, he, hm, hv]
  · intro m hm hv
    simp [IntInput.process_input, hf, he, hm, hdu, hv]

/-- Witness for C1's amended theorem: at value = max = 5, UP keeps the value
at 5. -/
theorem intinput_edit_clamps_witness :
    (IntInput.process_input ⟨5, some 0, some 5, true, true⟩ Keys.UP).1.value = 5 :=
  (intinput_edit_clamps ⟨5, some 0, some 5, true, true⟩ rfl rfl).2.2.1 5 rfl rfl

/-- The per-month day counts n_dias_mes of class DateInput
(src/libtui.py, line 613). -/
def n_dias_mes : List Int := [31, 28, 31, 30, 31, 30, 31, 31, 30, 31, 30, 31]

/-- State of the DateInput widget (src/libtui.py, lines 601-768).  The field
being_edited embeds the Python attribute _being_edited; focus_index is 0 for
the day sub-field, 1 for the month, 2 for the year. -/
structure DateInput where
  day : Int
  month : Int
  year : Int
  is_focused : Bool
  focus_index : Int
  being_edited : Bool
deriving DecidableEq

/-- DateInput._bissexto (src/libtui.py, lines 643-645): leap-year test. -/
def DateInput.bissexto (year : Int) : Bool :=
  year % 4 == 0 && (year % 100 != 0 || year % 400 == 0)

/-- DateInput._max_day_in_month (src/libtui.py, lines 647-651): 29 or 28 for
February depending on the leap-year test, otherwise the n_dias_mes entry. -/
def DateInput.max_day_in_month (month year : Int) : Int :=
  if month = 2 then (if DateInput.bissexto year then 29 else 28)
  else n_dias_mes.getD (month - 1).toNat 0

/-- DateInput.process_input (src/libtui.py, lines 684-762).  In Edit mode, UP
and DOWN mutate the focused sub-field: the day wraps within the current
month, the month wraps within 1..12 and then re-clamps the day, and the year
steps (staying positive on DOWN) and then re-clamps the day; ENTER and ESC
leave Edit mode.  In Browse mode LEFT/RIGHT cycle the focused sub-field and
ENTER enters Edit mode. -/
def DateInput.process_input (w : DateInput) (key : String) : DateInput × Bool :=
  if w.is_focused = false then (w, false)
  else if w.being_edited then
    if key = Keys.UP then
      if w.focus_index = 0 then
        let day := w.day + 1
        let max_day := DateInput.max_day_in_month w.month w.year
        ({ w with day := if day > max_day then 1 else day }, true)
      else if w.focus_index = 1 then
        let month := w.month + 1
        let month := if month > 12 then 1 else month
        let max_day := DateInput.max_day_in_month month w.year
        ({ w with month := month,
                  day := if w.day > max_day then max_day else w.day }, true)
      else if w.focus_index = 2 then
        let year := w.year + 1
        let max_day := DateInput.max_day_in_month w.month year
        ({ w with year := year,
                  day := if w.day > max_day then max_day else w.day }, true)
      else (w, true)
    else if key = Keys.DOWN then
      if w.focus_index = 0 then
        let day := w.day - 1
        ({ w with day :=
            if day < 1 then DateInput.max_day_in_month w.month w.year else day }, true)
      else if w.focus_index = 1 then
        let month := w.month - 1
        let month := if month < 1 then 12 else month
        let max_day := DateInput.max_day_in_month month w.year
        ({ w with month := month,
                  day := if w.day > max_day then max_day else w.day }, true)
      else if w.focus_index = 2 then
        let year := w.year - 1
        let year := if year < 1 then 1 else year
        let max_day := DateInput.max_day_in_month w.month year
        ({ w with year := year,
                  day := if w.day > max_day then max_day else w.day }, true)
      else (w, true)
    else if key = Keys.ESC then ({ w with being_edited := false }, true)
    else if key = Keys.ENTER then ({ w with being_edited := false }, true)
    else (w, false)
  else
    if key = Keys.LEFT then ({ w with focus_index := (w.focus_index - 1) % 3 }, true)
    else if key = Keys.RIGHT then ({ w with focus_index := (w.focus_index + 1) % 3 }, true)
    else if key = Keys.ENTER then ({ w with being_edited := true }, true)
    else (w, false)

/-- C3: after any UP/DOWN keypress on the month or year sub-field of a
focused DateInput in Edit mode, the day becomes the minimum of the old day
and the maximum day count of the resulting month and year; February has 29
days iff the year is divisible by 4 and (not divisible by 100 or divisible
by 400); and the three concrete scenarios from the spec hold: day 31 of
January becomes day 28 of February on month-increment in non-leap 2025 and
day 29 in leap 2024, and 29 February 2024 becomes 28 February 2025 on
year-increment. -/
theorem dateinput_reclamps_day :
    (∀ (w : DateInput) (key : String),
      w.is_focused = true → w.being_edited = true →
      w.focus_index = 1 ∨ w.focus_index = 2 →
      key = Keys.UP ∨ key = Keys.DOWN →
      (DateInput.process_input w key).1.day =
        min w.day (DateInput.max_day_in_month
          (DateInput.process_input w key).1.month
          (DateInput.process_input w key).1.year)) ∧
    (∀ y : Int, DateInput.max_day_in_month 2 y =
      if y % 4 = 0 ∧ (y % 100 ≠ 0 ∨ y % 400 = 0) then 29 else 28) ∧
    (DateInput.process_input ⟨31, 1, 2025, true, 1, true⟩ Keys.UP).1.day = 28 ∧
    (DateInput.process_input ⟨31, 1, 2025, true, 1, true⟩ Keys.UP).1.month = 2 ∧
    (DateInput.process_input ⟨31, 1, 2024, true, 1, true⟩ Keys.UP).1.day = 29 ∧
    (DateInput.process_input ⟨31, 1, 2024, true, 1, true⟩ Keys.UP).1.month = 2 ∧
    (DateInput.process_input ⟨29, 2, 2024, true, 2, true⟩ Keys.UP).1.day = 28 ∧
    (DateInput.process_input ⟨29, 2, 2024, true, 2, true⟩ Keys.UP).1.year = 2025 := by
  refine ⟨?_, ?_, by decide, by decide, by decide, by decide, by decide, by decide⟩
  · intro w key hf he hfi hk
    have hdu : ¬ (Keys.DOWN = Keys.UP) := by decide
    rcases hk with hk | hk <;> rcases hfi with hfi | hfi <;>
      subst hk <;>
      simp only [DateInput.process_input, hf, he, hfi, hdu] <;>
      norm_num <;>
      simp only [min_def] <;>
      split_ifs <;> omega
  · intro y
    simp only [DateInput.max_day_in_month, DateInput.bissexto, if_pos rfl,
      Bool.and_eq_true, Bool.or_eq_true, beq_iff_eq, bne_iff_ne]
    split_ifs <;> rfl

/-- Witness for C3: the generic re-clamp clause applied to the concrete
widget at 31 January 2025 with the month sub-field focused, on UP. -/
theorem dateinput_reclamps_day_witness :
    (DateInput.process_input ⟨31, 1, 2025, true, 1, true⟩ Keys.UP).1.day =
      min 31 (DateInput.max_day_in_month
        (DateInput.process_input ⟨31, 1, 2025, true, 1, true⟩ Keys.UP).1.month
        (DateInput.process_input ⟨31, 1, 2025, true, 1, true⟩ Keys.UP).1.year) :=
  dateinput_reclamps_day.1 ⟨31, 1, 2025, true, 1, true⟩ Keys.UP rfl rfl
    (Or.inl rfl) (Or.inl rfl)

/-- Geometry and focus state common to all widgets (class Widget,
src/libtui.py, lines 67-84). -/
structure Widget where
  x : Int
  y : Int
  is_focusable : Bool
  is_focused : Bool
deriving DecidableEq

/-- Widget.process_input of the base class (src/libtui.py, lines 81-83):
it always falls off the end, i.e. returns a falsy value and changes
nothing. -/
def Widget.process_input (_w : Widget) (_key : String) : Bool :=
  false

/-- State of the VerticalList container (src/libtui.py, lines 1021-1167).
The field focus_index_val embeds the Python attribute _focus_index; the
children are the contained widgets. -/
structure VerticalList where
  height : Int
  children : List Widget
  scroll_offset : Int
  focus_index_val : Int
  is_focused : Bool
deriving DecidableEq

/-- The focus_index property getter (src/libtui.py, lines 1051-1061): 0 on an
empty list, otherwise _focus_index clamped from above to count - 1. -/
def VerticalList.focus_index (l : VerticalList) : Int :=
  if l.children.length = 0 then 0
  else min l.focus_index_val ((l.children.length : Int) - 1)

/-- The focus_index property setter (src/libtui.py, lines 1063-1074): stores
0 on an empty list, otherwise the value clamped to [0, count - 1]. -/
def VerticalList.set_focus_index (l : VerticalList) (value : Int) : VerticalList :=
  if l.children.length = 0 then { l with focus_index_val := 0 }
  else { l with focus_index_val := max 0 (min value ((l.children.length : Int) - 1)) }

/-- The child-focus-flag assignment self.children[i].is_focused = b performed
inside VerticalList._move_focus (src/libtui.py, lines 1155 and 1158). -/
def VerticalList.setChildFocus (l : VerticalList) (i : Int) (b : Bool) : VerticalList :=
  { l with children :=
      match l.children.get? i.toNat with
      | some w => l.children.set i.toNat { w with is_focused := b }
      | none => l.children }

/-- VerticalList._ensure_visible (src/libtui.py, lines 1162-1167). -/
def VerticalList.ensure_visible (l : VerticalList) : VerticalList :=
  if l.focus_index < l.scroll_offset then { l with scroll_offset := l.focus_index }
  else if l.focus_index ≥ l.scroll_offset + l.height - 2 then
    { l with scroll_offset := l.focus_index - (l.height - 3) }
  else l

/-- VerticalList._move_focus (src/libtui.py, lines 1149-1160): unfocus the
current child, advance the selection by delta with wraparound, focus the new
child, then adjust the scroll offset. -/
def VerticalList.move_focus (l : VerticalList) (delta : Int) : VerticalList :=
  if l.children = [] then l
  else
    let current_index := l.focus_index
    let l1 := l.setChildFocus current_index false
    let l2 := l1.set_focus_index ((current_index + delta) % (l1.children.length : Int))
    let l3 := l2.setChildFocus l2.focus_index true
    l3.ensure_visible

/-- VerticalList.process_input (src/libtui.py, lines 1077-1101): UP/DOWN move
the selection and are consumed; any other key is forwarded to the selected
child (whose base-class handler consumes nothing). -/
def VerticalList.process_input (l : VerticalList) (key : String) : VerticalList × Bool :=
  if l.is_focused = false then (l, false)
  else if key = Keys.UP then (l.move_focus (-1), true)
  else if key = Keys.DOWN then (l.move_focus 1, true)
  else if l.children ≠ [] then
    (l, Widget.process_input (l.children.getD l.focus_index.toNat ⟨1, 1, false, false⟩) key)
  else (l, false)

theorem setChildFocus_height (l : VerticalList) (i : Int) (b : Bool) :
    (l.setChildFocus i b).height = l.height := by
  simp only [VerticalList.setChildFocus]

theorem setChildFocus_scroll (l : VerticalList) (i : Int) (b : Bool) :
    (l.setChildFocus i b).scroll_offset = l.scroll_offset := by
  simp only [VerticalList.setChildFocus]

theorem setChildFocus_fival (l : VerticalList) (i : Int) (b : Bool) :
    (l.setChildFocus i b).focus_index_val = l.focus_index_val := by
  simp only [VerticalList.setChildFocus]

theorem setChildFocus_length (l : VerticalList) (i : Int) (b : Bool) :
    (l.setChildFocus i b).children.length = l.children.length := by
  simp only [VerticalList.setChildFocus]
  cases l.children.get? i.toNat <;> simp

theorem ensure_visible_height (l : VerticalList) :
    (l.ensure_visible).height = l.height := by
  simp only [VerticalList.ensure_visible]
  split_ifs <;> rfl

theorem ensure_visible_fi (l : VerticalList) :
    (l.ensure_visible).focus_index = l.focus_index := by
  have h : (l.ensure_visible).children = l.children ∧
      (l.ensure_visible).focus_index_val = l.focus_index_val := by
    simp only [VerticalList.ensure_visible]
    split_ifs <;> exact ⟨rfl, rfl⟩
  simp only [VerticalList.focus_index, h.1, h.2]

theorem ensure_visible_scroll (l : VerticalList) :
    (l.ensure_visible).scroll_offset =
      if l.focus_index < l.scroll_offset then l.focus_index
      else if l.focus_index ≥ l.scroll_offset + l.height - 2 then
        l.focus_index - (l.height - 3)
      else l.scroll_offset := by
  simp only [VerticalList.ensure_visible]
  split_ifs <;> rfl

theorem setChildFocus_fi (l : VerticalList) (i : Int) (b : Bool) :
    (l.setChildFocus i b).focus_index = l.focus_index := by
  simp only [VerticalList.focus_index, setChildFocus_length, setChildFocus_fival]

theorem ensure_visible_children (l : VerticalList) :
    (l.ensure_visible).children = l.children := by
  simp only [VerticalList.ensure_visible]
  split_ifs <;> rfl

theorem set_focus_index_children (l : VerticalList) (v : Int) :
    (l.set_focus_index v).children = l.children := by
  simp only [VerticalList.set_focus_index]
  split_ifs <;> rfl

theorem set_focus_index_scroll (l : VerticalList) (v : Int) :
    (l.set_focus_index v).scroll_offset = l.scroll_offset := by
  simp only [VerticalList.set_focus_index]
  split_ifs <;> rfl

theorem set_focus_index_height (l : VerticalList) (v : Int) :
    (l.set_focus_index v).height = l.height := by
  simp only [VerticalList.set_focus_index]
  split_ifs <;> rfl

theorem set_focus_index_fi (l : VerticalList) (v : Int) (h : l.children.length ≠ 0) :
    (l.set_focus_index v).focus_index = max 0 (min v ((l.children.length : Int) - 1)) := by
  have hch := set_focus_index_children l v
  simp only [VerticalList.focus_index, hch]
  rw [if_neg h]
  simp only [VerticalList.set_focus_index, if_neg h]
  have hl : (1 : Int) ≤ (l.children.length : Int) := by
    have := Nat.pos_of_ne_zero h
    exact_mod_cast this
  omega

theorem move_focus_height (l : VerticalList) (delta : Int) :
    (l.move_focus delta).height = l.height := by
  simp only [VerticalList.move_focus]
  split
  · rfl
  · rw [ensure_visible_height, setChildFocus_height]
    simp only [VerticalList.set_focus_index]
    split <;> rw [setChildFocus_height]

/-- After VerticalList._move_focus on a non-empty list, the focus index is
the wrapped selection, and the list length is unchanged. -/
theorem move_focus_fi (l : VerticalList) (delta : Int) (hne : l.children ≠ []) :
    (l.move_focus delta).focus_index = (l.focus_index + delta) % (l.children.length : Int) ∧
    (l.move_focus delta).children.length = l.children.length ∧
    (l.move_focus delta).scroll_offset =
      (let fi := (l.focus_index + delta) % (l.children.length : Int)
       if fi < l.scroll_offset then fi
       else if fi ≥ l.scroll_offset + l.height - 2 then fi - (l.height - 3)
       else l.scroll_offset) := by
  have hlen : 0 < l.children.length := List.length_pos.mpr hne
  have hlen0 : l.children.length ≠ 0 := Nat.pos_iff_ne_zero.mp hlen
  have hlen1 : (1 : Int) ≤ (l.children.length : Int) := by exact_mod_cast hlen
  have hmod : 0 ≤ (l.focus_index + delta) % (l.children.length : Int) ∧
      (l.focus_index + delta) % (l.children.length : Int) ≤ (l.children.length : Int) - 1 := by
    constructor
    · exact Int.emod_nonneg _ (by omega)
    · have := Int.emod_lt_of_pos (l.focus_index + delta)
        (show (0:Int) < (l.children.length : Int) by omega)
      omega
  have hcollapse : max 0 (min ((l.focus_index + delta) % (l.children.length : Int))
      ((l.children.length : Int) - 1)) =
      (l.focus_index + delta) % (l.children.length : Int) := by omega
  simp only [VerticalList.move_focus, if_neg hne]
  rw [setChildFocus_length]
  have hlen2 : ((l.setChildFocus l.focus_index false).set_focus_index
      ((l.focus_index + delta) % (l.children.length : Int))).children.length ≠ 0 := by
    rw [set_focus_index_children, setChildFocus_length]
    exact hlen0
  have hfi2 : ((l.setChildFocus l.focus_index false).set_focus_index
      ((l.focus_index + delta) % (l.children.length : Int))).focus_index =
      (l.focus_index + delta) % (l.children.length : Int) := by
    rw [set_focus_index_fi _ _ (by rw [setChildFocus_length]; exact hlen0),
      setChildFocus_length, hcollapse]
  refine ⟨?_, ?_, ?_⟩
  · rw [ensure_visible_fi, setChildFocus_fi, hfi2]
  · rw [ensure_visible_children]
    rw [setChildFocus_length, set_focus_index_children, setChildFocus_length]
  · rw [ensure_visible_scroll, setChildFocus_fi, hfi2, setChildFocus_scroll,
      set_focus_index_scroll, setChildFocus_scroll, setChildFocus_height,
      set_focus_index_height, setChildFocus_height]

/-- Counterexample to C9: a VerticalList of height 2 holding one child moves
the selection outside the visible window (scroll becomes 1 while the
selection stays 0); and a list of height 4 with three children and a stale
scroll offset 3 lands on the last child with scroll offset 2, not
N - (H-2) = 1. -/
theorem verticallist_scroll_counterexample :
    (((VerticalList.mk 2 [⟨1, 1, false, true⟩] 0 0 true).move_focus 1).focus_index = 0 ∧
     ((VerticalList.mk 2 [⟨1, 1, false, true⟩] 0 0 true).move_focus 1).scroll_offset = 1 ∧
     ¬ (((VerticalList.mk 2 [⟨1, 1, false, true⟩] 0 0 true).move_focus 1).scroll_offset ≤
          ((VerticalList.mk 2 [⟨1, 1, false, true⟩] 0 0 true).move_focus 1).focus_index)) ∧
    (((VerticalList.mk 4 [⟨1, 1, false, false⟩, ⟨1, 2, false, true⟩, ⟨1, 3, false, false⟩]
         3 1 true).move_focus 1).focus_index = 2 ∧
     ((VerticalList.mk 4 [⟨1, 1, false, false⟩, ⟨1, 2, false, true⟩, ⟨1, 3, false, false⟩]
         3 1 true).move_focus 1).scroll_offset = 2 ∧
     (2 : Int) ≠ 3 - (4 - 2)) := by
  decide

/-- C9 amended: for every VerticalList of height H ≥ 3 with a non-empty
child list, after any _move_focus step the selection lies in the visible
window [scroll_offset, scroll_offset + H - 3]; and if additionally the list
has N > H - 2 children and the scroll offset was in its reachable range
[0, N - (H-2)] before the move, a move that lands on the last child (index
N - 1) leaves scroll_offset = N - (H-2). -/
theorem verticallist_scroll_keeps_selection_visible (l : VerticalList) (delta : Int)
    (hh : 3 ≤ l.height) (hne : l.children ≠ []) :
    ((l.move_focus delta).scroll_offset ≤ (l.move_focus delta).focus_index ∧
      (l.move_focus delta).focus_index ≤ (l.move_focus delta).scroll_offset + l.height - 3) ∧
    ((l.children.length : Int) > l.height - 2 →
      0 ≤ l.scroll_offset →
      l.scroll_offset ≤ (l.children.length : Int) - (l.height - 2) →
      (l.move_focus delta).focus_index = (l.children.length : Int) - 1 →
      (l.move_focus delta).scroll_offset = (l.children.length : Int) - (l.height - 2)) := by
  obtain ⟨hfi, _hlen, hsc⟩ := move_focus_fi l delta hne
  have hlen : 0 < l.children.length := List.length_pos.mpr hne
  have hlen1 : (1 : Int) ≤ (l.children.length : Int) := by exact_mod_cast hlen
  have hmod : 0 ≤ (l.focus_index + delta) % (l.children.length : Int) ∧
      (l.focus_index + delta) % (l.children.length : Int) ≤ (l.children.length : Int) - 1 := by
    constructor
    · exact Int.emod_nonneg _ (by omega)
    · have := Int.emod_lt_of_pos (l.focus_index + delta)
        (show (0:Int) < (l.children.length : Int) by omega)
      omega
  simp only at hsc
  rw [hfi, hsc]
  constructor
  · split_ifs <;> omega
  · intro _ _ hbound hlast
    split_ifs <;> omega

/-- Witness for C9's amended theorem: a height-3 list with two children, on
a DOWN move from the first child, scrolls to offset 1 = N - (H-2) with the
selection (the last child) visible. -/
theorem verticallist_scroll_witness :
    (((VerticalList.mk 3 [⟨1, 1, false, true⟩, ⟨1, 2, false, false⟩] 0 0 true).move_focus
        1).scroll_offset ≤
      ((VerticalList.mk 3 [⟨1, 1, false, true⟩, ⟨1, 2, false, false⟩] 0 0 true).move_focus
        1).focus_index ∧
     ((VerticalList.mk 3 [⟨1, 1, false, true⟩, ⟨1, 2, false, false⟩] 0 0 true).move_focus
        1).focus_index ≤
      ((VerticalList.mk 3 [⟨1, 1, false, true⟩, ⟨1, 2, false, false⟩] 0 0 true).move_focus
        1).scroll_offset + 3 - 3) ∧
    ((2 : Int) > 3 - 2 → 0 ≤ (0 : Int) → (0 : Int) ≤ 2 - (3 - 2) →
      ((VerticalList.mk 3 [⟨1, 1, false, true⟩, ⟨1, 2, false, false⟩] 0 0 true).move_focus
        1).focus_index = 2 - 1 →
      ((VerticalList.mk 3 [⟨1, 1, false, true⟩, ⟨1, 2, false, false⟩] 0 0 true).move_focus
        1).scroll_offset = 2 - (3 - 2)) :=
  verticallist_scroll_keeps_selection_visible
    (VerticalList.mk 3 [⟨1, 1, false, true⟩, ⟨1, 2, false, false⟩] 0 0 true) 1
    (by decide) (by decide)

/-- A screen's widget set (class TUIScreen, src/libtui.py, lines 88-253). -/
structure TUIScreen where
  children : List Widget
deriving DecidableEq

/-- TUIScreen.get_focusable_widgets (src/libtui.py, lines 122-129). -/
def TUIScreen.get_focusable_widgets (s : TUIScreen) : List Widget :=
  s.children.filter (fun w => w.is_focusable)

/-- TUIScreen.get_focused_widget (src/libtui.py, lines 131-140): the first
focusable widget whose is_focused flag is set, if any. -/
def TUIScreen.get_focused_widget (s : TUIScreen) : Option Widget :=
  (s.get_focusable_widgets).find? (fun w => w.is_focused)

/-- The unfocus step of TUIScreen.set_focus_by_index (src/libtui.py, lines
155-157): clear the is_focused flag of the current focused widget, i.e. of
the first focusable child that is focused. -/
def clearFirstFocused : List Widget → List Widget
  | [] => []
  | w :: ws =>
    if w.is_focusable && w.is_focused then { w with is_focused := false } :: ws
    else w :: clearFirstFocused ws

/-- The focus step of TUIScreen.set_focus_by_index (src/libtui.py, line 159):
set the is_focused flag of the t-th focusable child. -/
def focusNth : Nat → List Widget → List Widget
  | _, [] => []
  | t, w :: ws =>
    if w.is_focusable then
      if t = 0 then { w with is_focused := true } :: ws
      else w :: focusNth (t - 1) ws
    else w :: focusNth t ws

/-- TUIScreen.set_focus_by_index (src/libtui.py, lines 142-160): a no-op
without focusable widgets, otherwise the index is clamped to
[0, len - 1], the currently focused widget is unfocused and the widget at
the clamped index of the focusable list is focused. -/
def TUIScreen.set_focus_by_index (s : TUIScreen) (index : Int) : TUIScreen :=
  let focusable_widgets := s.get_focusable_widgets
  if focusable_widgets = [] then s
  else
    let index_to_focus := max 0 (min index ((focusable_widgets.length : Int) - 1))
    ⟨focusNth index_to_focus.toNat (clearFirstFocused s.children)⟩

/-- TUIScreen.move_focus (src/libtui.py, lines 163-181): advance the focus
through the focusable list with wraparound; when no widget is focused the
ValueError handler selects index 0 for direction +1 and index -1 (clamped to
0 by set_focus_by_index) otherwise. -/
def TUIScreen.move_focus (s : TUIScreen) (direction : Int) : TUIScreen :=
  let focusable_widgets := s.get_focusable_widgets
  if focusable_widgets = [] then s
  else
    let new_index : Int :=
      match s.get_focused_widget with
      | some current =>
        match focusable_widgets.indexOf? current with
        | some i => ((i : Int) + direction) % (focusable_widgets.length : Int)
        | none => if direction = 1 then 0 else -1
      | none => if direction = 1 then 0 else -1
    s.set_focus_by_index new_index

/-- The candidate test inside the loop of
TUIScreen._find_next_widget_in_direction (src/libtui.py, lines 199-206):
a widget strictly in the requested direction contributes the tuple
(primary offset, perpendicular offset, widget). -/
def candidateEntry (direction : String) (current widget : Widget) :
    Option (Int × Int × Widget) :=
  let dx := widget.x - current.x
  let dy := widget.y - current.y
  if direction = Keys.DOWN ∧ dy > 0 then some (dy, dx, widget)
  else if direction = Keys.UP ∧ dy < 0 then some (dy, dx, widget)
  else if direction = Keys.RIGHT ∧ dx > 0 then some (dx, dy, widget)
  else if direction = Keys.LEFT ∧ dx < 0 then some (dx, dy, widget)
  else none

/-- The candidate list built by TUIScreen._find_next_widget_in_direction:
all focusable widgets other than the current one (excluded by object
identity, i.e. by position ci in the focusable list) that lie strictly in
the requested direction, in list order. -/
def directionCandidates (s : TUIScreen) (direction : String) (ci : Nat)
    (current : Widget) : List (Int × Int × Widget) :=
  (((s.get_focusable_widgets).enum.filter (fun p => p.1 != ci)).map (fun p => p.2)).filterMap
    (candidateEntry direction current)

/-- The ranking key used by candidates.sort (src/libtui.py, lines 210-213):
(absolute perpendicular-axis offset, absolute primary-axis offset), which is
(abs of the tuple's second component, abs of its first). -/
def sortKey (c : Int × Int × Widget) : Int × Int :=
  (|c.2.1|, |c.1|)

/-- Lexicographic order on ranking keys. -/
def keyLE (a b : Int × Int) : Prop :=
  a.1 < b.1 ∨ (a.1 = b.1 ∧ a.2 ≤ b.2)

instance (a b : Int × Int) : Decidable (keyLE a b) :=
  inferInstanceAs (Decidable (a.1 < b.1 ∨ (a.1 = b.1 ∧ a.2 ≤ b.2)))

/-- Ordered insertion used to model candidates.sort. -/
def insertByKey (c : Int × Int × Widget) :
    List (Int × Int × Widget) → List (Int × Int × Widget)
  | [] => [c]
  | d :: ds =>
    if keyLE (sortKey c) (sortKey d) then c :: d :: ds else d :: insertByKey c ds

/-- The sort performed by candidates.sort in
TUIScreen._find_next_widget_in_direction, as an insertion sort on the
ranking key; the theorems use only that the head of the result is minimal
and that the result has the same members. -/
def sortByKey : List (Int × Int × Widget) → List (Int × Int × Widget)
  | [] => []
  | c :: cs => insertByKey c (sortByKey cs)

/-- TUIScreen._find_next_widget_in_direction (src/libtui.py, lines 183-215):
None when nothing is focused or no candidate exists, otherwise the widget of
the best-ranked candidate. -/
def TUIScreen.find_next_widget_in_direction (s : TUIScreen) (direction : String) :
    Option Widget :=
  match (s.get_focusable_widgets).enum.find? (fun p => p.2.is_focused) with
  | none => none
  | some (ci, current) =>
    match sortByKey (directionCandidates s direction ci current) with
    | [] => none
    | c :: _ => some c.2.2

/-- The claim's strict-direction requirement on the selected widget,
relative to the focused widget. -/
def strictly_in_direction (direction : String) (current w : Widget) : Prop :=
  (direction = Keys.DOWN → w.y - current.y > 0) ∧
  (direction = Keys.UP → w.y - current.y < 0) ∧
  (direction = Keys.RIGHT → w.x - current.x > 0) ∧
  (direction = Keys.LEFT → w.x - current.x < 0)

/-- The number of focused widgets in the tab order of a screen. -/
def TUIScreen.focusedCount (s : TUIScreen) : Nat :=
  ((s.get_focusable_widgets).filter (fun w => w.is_focused)).length

/-- The focus invariant claimed for screens: a non-empty tab order carries
exactly one focused widget, an empty one none at all. -/
def focus_invariant (s : TUIScreen) : Prop :=
  (s.get_focusable_widgets ≠ [] → s.focusedCount = 1) ∧
  (s.get_focusable_widgets = [] → ∀ w ∈ s.children, w.is_focused = false)

theorem keyLE_refl (a : Int × Int) : keyLE a a := by
  unfold keyLE
  omega

theorem keyLE_total (a b : Int × Int) : keyLE a b ∨ keyLE b a := by
  unfold keyLE
  omega

theorem keyLE_trans {a b c : Int × Int} (h1 : keyLE a b) (h2 : keyLE b c) : keyLE a c := by
  unfold keyLE at h1 h2 ⊢
  omega

theorem insertByKey_mem (c x : Int × Int × Widget) (l : List (Int × Int × Widget)) :
    x ∈ insertByKey c l ↔ x = c ∨ x ∈ l := by
  induction l with
  | nil => simp [insertByKey]
  | cons d ds ih =>
    simp only [insertByKey]
    split_ifs
    · simp [List.mem_cons]
    · simp only [List.mem_cons, ih]
      tauto

theorem sortByKey_mem (x : Int × Int × Widget) (l : List (Int × Int × Widget)) :
    x ∈ sortByKey l ↔ x ∈ l := by
  induction l with
  | nil => simp [sortByKey]
  | cons c cs ih =>
    simp only [sortByKey, insertByKey_mem, ih, List.mem_cons]

theorem insertByKey_ne_nil (c : Int × Int × Widget) (l : List (Int × Int × Widget)) :
    insertByKey c l ≠ [] := by
  cases l with
  | nil => simp [insertByKey]
  | cons d ds =>
    simp only [insertByKey]
    split_ifs <;> simp

theorem sortByKey_eq_nil_iff (l : List (Int × Int × Widget)) :
    sortByKey l = [] ↔ l = [] := by
  cases l with
  | nil => simp [sortByKey]
  | cons c cs =>
    simp only [sortByKey]
    constructor
    · intro h
      exact absurd h (insertByKey_ne_nil c (sortByKey cs))
    · intro h
      exact absurd h (by simp)

theorem sortByKey_head_le (l : List (Int × Int × Widget)) (c : Int × Int × Widget)
    (cs : List (Int × Int × Widget)) (hs : sortByKey l = c :: cs) :
    ∀ x ∈ l, keyLE (sortKey c) (sortKey x) := by
  induction l generalizing c cs with
  | nil => simp [sortByKey] at hs
  | cons a as ih =>
    simp only [sortByKey] at hs
    cases hsa : sortByKey as with
    | nil =>
      rw [hsa] at hs
      simp only [insertByKey] at hs
      obtain ⟨rfl, rfl⟩ := List.cons.inj hs
      intro x hx
      rcases List.mem_cons.mp hx with rfl | hx
      · exact keyLE_refl _
      · exact absurd ((sortByKey_mem x as).mpr hx) (by rw [hsa]; simp)
    | cons d ds =>
      rw [hsa] at hs
      have hd := ih d ds hsa
      simp only [insertByKey] at hs
      split_ifs at hs with hle
      · obtain rfl := (List.cons.inj hs).1
        intro x hx
        rcases List.mem_cons.mp hx with rfl | hx
        · exact keyLE_refl _
        · exact keyLE_trans hle (hd x hx)
      · have hdc : d = c := (List.cons.inj hs).1
        subst hdc
        intro x hx
        rcases List.mem_cons.mp hx with rfl | hx
        · rcases keyLE_total (sortKey x) (sortKey d) with h | h
          · exact absurd h hle
          · exact h
        · exact hd x hx

theorem candidateEntry_sound (direction : String) (current widget : Widget)
    (c : Int × Int × Widget) (h : candidateEntry direction current widget = some c) :
    c.2.2 = widget ∧ strictly_in_direction direction current widget := by
  simp only [candidateEntry] at h
  unfold strictly_in_direction
  split_ifs at h with h1 h2 h3 h4
  · obtain rfl := Option.some.inj h
    refine ⟨rfl, fun _ => h1.2, ?_, ?_, ?_⟩ <;>
      · intro hd
        rw [h1.1] at hd
        exact absurd hd (by decide)
  · obtain rfl := Option.some.inj h
    refine ⟨rfl, ?_, fun _ => h2.2, ?_, ?_⟩ <;>
      · intro hd
        rw [h2.1] at hd
        exact absurd hd (by decide)
  · obtain rfl := Option.some.inj h
    refine ⟨rfl, ?_, ?_, fun _ => h3.2, ?_⟩ <;>
      · intro hd
        rw [h3.1] at hd
        exact absurd hd (by decide)
  · obtain rfl := Option.some.inj h
    refine ⟨rfl, ?_, ?_, ?_, fun _ => h4.2⟩ <;>
      · intro hd
        rw [h4.1] at hd
        exact absurd hd (by decide)

/-- C6: directional navigation, started from the focused widget found at
position ci of the focusable list, returns None exactly when no widget lies
strictly in the requested direction, and otherwise returns a widget that
lies strictly in the requested direction and whose candidate entry is
minimal in the (absolute perpendicular offset, absolute primary offset)
ordering among all candidates, so focus never moves to a non-candidate and
does not move at all when there is no candidate. -/
theorem directional_nav_strict_and_minimal (s : TUIScreen) (direction : String)
    (ci : Nat) (current : Widget)
    (hcur : (s.get_focusable_widgets).enum.find? (fun p => p.2.is_focused) =
      some (ci, current)) :
    (s.find_next_widget_in_direction direction = none ↔
      directionCandidates s direction ci current = []) ∧
    (∀ w : Widget, s.find_next_widget_in_direction direction = some w →
      strictly_in_direction direction current w ∧
      ∃ c ∈ directionCandidates s direction ci current, c.2.2 = w ∧
        ∀ d ∈ directionCandidates s direction ci current,
          keyLE (sortKey c) (sortKey d)) := by
  have hstep : s.find_next_widget_in_direction direction =
      (match sortByKey (directionCandidates s direction ci current) with
        | [] => none
        | c :: _ => some c.2.2) := by
    unfold TUIScreen.find_next_widget_in_direction
    rw [hcur]
  constructor
  · rw [hstep]
    cases hs : sortByKey (directionCandidates s direction ci current) with
    | nil =>
      exact ⟨fun _ => (sortByKey_eq_nil_iff _).mp hs, fun _ => rfl⟩
    | cons c cs =>
      constructor
      · intro h
        exact Option.noConfusion h
      · intro h
        rw [h] at hs
        simp [sortByKey] at hs
  · intro w hw
    rw [hstep] at hw
    rcases hs : sortByKey (directionCandidates s direction ci current) with _ | ⟨c, cs⟩ <;>
      rw [hs] at hw
    · exact Option.noConfusion hw
    · have hw2 : c.2.2 = w := Option.some.inj hw
      have hcmem : c ∈ directionCandidates s direction ci current :=
        (sortByKey_mem c _).mp (hs ▸ List.mem_cons_self c cs)
      have hcmem2 := hcmem
      unfold directionCandidates at hcmem2
      obtain ⟨p, _hp, hce⟩ := List.mem_filterMap.mp hcmem2
      obtain ⟨hcw, hstrict⟩ := candidateEntry_sound direction current p c hce
      refine ⟨?_, c, hcmem, hw2, sortByKey_head_le _ c cs hs⟩
      rw [← hw2, hcw]
      exact hstrict

/-- A two-widget screen used to witness the directional-navigation and
focus-movement theorems on concrete data. -/
def demo_screen : TUIScreen :=
  ⟨[⟨1, 1, true, true⟩, ⟨1, 2, true, false⟩]⟩

/-- Witness for C6: on a concrete two-widget screen with the upper widget
focused, the DOWN search selects the lower widget, which is strictly below
and minimal in the ranking. -/
theorem directional_nav_witness :
    strictly_in_direction Keys.DOWN ⟨1, 1, true, true⟩ ⟨1, 2, true, false⟩ ∧
    ∃ c ∈ directionCandidates demo_screen Keys.DOWN 0 ⟨1, 1, true, true⟩,
      c.2.2 = (⟨1, 2, true, false⟩ : Widget) ∧
      ∀ d ∈ directionCandidates demo_screen Keys.DOWN 0 ⟨1, 1, true, true⟩,
        keyLE (sortKey c) (sortKey d) :=
  (directional_nav_strict_and_minimal demo_screen Keys.DOWN 0 ⟨1, 1, true, true⟩
    (by decide)).2 ⟨1, 2, true, false⟩ (by decide)

theorem clearFirstFocused_countP (l : List Widget) :
    (clearFirstFocused l).countP (fun w => w.is_focusable && w.is_focused) =
      l.countP (fun w => w.is_focusable && w.is_focused) - 1 := by
  induction l with
  | nil => rfl
  | cons w ws ih =>
    simp only [clearFirstFocused]
    by_cases h : (w.is_focusable && w.is_focused) = true
    · rw [if_pos h]
      simp [List.countP_cons, h]
    · rw [if_neg h]
      simp only [List.countP_cons, ih]
      rw [if_neg h]
      omega

theorem clearFirstFocused_countQ (l : List Widget) :
    (clearFirstFocused l).countP (fun w => w.is_focusable) =
      l.countP (fun w => w.is_focusable) := by
  induction l with
  | nil => rfl
  | cons w ws ih =>
    simp only [clearFirstFocused]
    by_cases h : (w.is_focusable && w.is_focused) = true
    · rw [if_pos h]
      simp [List.countP_cons]
    · rw [if_neg h]
      simp [List.countP_cons, ih]

theorem focusNth_countQ (t : Nat) (l : List Widget) :
    (focusNth t l).countP (fun w => w.is_focusable) =
      l.countP (fun w => w.is_focusable) := by
  induction l generalizing t with
  | nil => rfl
  | cons w ws ih =>
    simp only [focusNth]
    by_cases hq : w.is_focusable = true
    · rw [if_pos hq]
      by_cases ht : t = 0
      · rw [if_pos ht]
        simp [List.countP_cons, hq]
      · rw [if_neg ht]
        simp [List.countP_cons, hq, ih]
    · rw [if_neg hq]
      simp [List.countP_cons, hq, ih]

theorem focusNth_countP (t : Nat) (l : List Widget)
    (hz : l.countP (fun w => w.is_focusable && w.is_focused) = 0)
    (ht : t < l.countP (fun w => w.is_focusable)) :
    (focusNth t l).countP (fun w => w.is_focusable && w.is_focused) = 1 := by
  induction l generalizing t with
  | nil => simp at ht
  | cons w ws ih =>
    simp only [List.countP_cons] at hz ht
    simp only [focusNth]
    by_cases hq : w.is_focusable = true
    · by_cases hf : w.is_focused = true
      · exfalso
        rw [hq, hf] at hz
        simp at hz
      · rw [if_pos hq]
        have hwz : (w.is_focusable && w.is_focused) = false := by
          simp [Bool.eq_false_iff.mpr hf]
        rw [hwz] at hz
        simp only [if_neg (by simp : ¬ (false = true))] at hz
        by_cases ht0 : t = 0
        · rw [if_pos ht0]
          have hz2 : ws.countP (fun w => w.is_focusable && w.is_focused) = 0 := by omega
          simp [List.countP_cons, hz2, hq]
        · rw [if_neg ht0]
          simp only [List.countP_cons, hwz]
          rw [if_neg (by simp : ¬ (false = true))]
          have ht2 : t - 1 < ws.countP (fun w => w.is_focusable) := by
            rw [hq] at ht
            simp at ht
            omega
          rw [ih (t - 1) (by omega) ht2]
    · rw [if_neg hq]
      have hwz : (w.is_focusable && w.is_focused) = false := by
        simp [Bool.eq_false_iff.mpr hq]
      rw [hwz] at hz
      simp only [if_neg (by simp : ¬ (false = true))] at hz
      have ht2 : t < ws.countP (fun w => w.is_focusable) := by
        have : ¬ ((fun w : Widget => w.is_focusable) w = true) := hq
        rw [if_neg this] at ht
        omega
      simp only [List.countP_cons, hwz]
      rw [if_neg (by simp : ¬ (false = true))]
      rw [ih t (by omega) ht2]

theorem length_filter_countP (l : List Widget) (p : Widget → Bool) :
    (l.filter p).length = l.countP p := by
  induction l with
  | nil => rfl
  | cons w ws ih =>
    by_cases h : p w = true <;> simp [List.filter_cons, List.countP_cons, h, ih]

theorem filter_filter_countP (l : List Widget) :
    ((l.filter (fun w => w.is_focusable)).filter (fun w => w.is_focused)).length =
      l.countP (fun w => w.is_focusable && w.is_focused) := by
  induction l with
  | nil => rfl
  | cons w ws ih =>
    by_cases hq : w.is_focusable = true <;> by_cases hf : w.is_focused = true
    · simp only [List.filter_cons, if_pos hq, if_pos hf, List.length_cons,
        List.countP_cons, ih]
      rw [if_pos (by simp [hq, hf])]
    · simp only [List.filter_cons, if_pos hq, if_neg hf, List.countP_cons, ih]
      rw [if_neg (by simp [hq, hf])]
      all_goals omega
    · simp only [List.filter_cons, if_neg hq, List.countP_cons, ih]
      rw [if_neg (by simp [hq])]
      all_goals omega
    · simp only [List.filter_cons, if_neg hq, List.countP_cons, ih]
      rw [if_neg (by simp [hq])]
      all_goals omega

theorem focusedCount_eq_countP (s : TUIScreen) :
    s.focusedCount = s.children.countP (fun w => w.is_focusable && w.is_focused) :=
  filter_filter_countP s.children

theorem focusable_eq_nil_iff (s : TUIScreen) :
    s.get_focusable_widgets = [] ↔ s.children.countP (fun w => w.is_focusable) = 0 := by
  unfold TUIScreen.get_focusable_widgets
  rw [← List.length_eq_zero, length_filter_countP]

theorem clearFirstFocused_id (l : List Widget)
    (h : ∀ w ∈ l, (w.is_focusable && w.is_focused) = false) :
    clearFirstFocused l = l := by
  induction l with
  | nil => rfl
  | cons w ws ih =>
    simp only [clearFirstFocused]
    rw [if_neg (by simp [h w (List.mem_cons_self w ws)]),
      ih (fun x hx => h x (List.mem_cons_of_mem w hx))]

/-- Establishment of the focus invariant by set_focus_by_index, from any
state with at most one focused tab-order widget whose children are all
unfocused whenever the tab order is empty. -/
theorem set_focus_by_index_invariant (s : TUIScreen) (index : Int)
    (h01 : s.children.countP (fun w => w.is_focusable && w.is_focused) ≤ 1)
    (hclean : s.get_focusable_widgets = [] → ∀ w ∈ s.children, w.is_focused = false) :
    focus_invariant (s.set_focus_by_index index) := by
  by_cases hemp : s.get_focusable_widgets = []
  · simp only [TUIScreen.set_focus_by_index]
    rw [if_pos hemp]
    exact ⟨fun hne => absurd hemp hne, fun _ => hclean hemp⟩
  · have hq : 0 < s.children.countP (fun w => w.is_focusable) :=
      Nat.pos_of_ne_zero (fun h0 => hemp ((focusable_eq_nil_iff s).mpr h0))
    have hlenq : (s.get_focusable_widgets).length =
        s.children.countP (fun w => w.is_focusable) :=
      length_filter_countP s.children _
    simp only [TUIScreen.set_focus_by_index]
    rw [if_neg hemp]
    have hz : (clearFirstFocused s.children).countP
        (fun w => w.is_focusable && w.is_focused) = 0 := by
      rw [clearFirstFocused_countP]
      omega
    have ht : (max 0 (min index (((s.get_focusable_widgets).length : Int) - 1))).toNat <
        (clearFirstFocused s.children).countP (fun w => w.is_focusable) := by
      rw [clearFirstFocused_countQ]
      rw [hlenq]
      omega
    have hone := focusNth_countP _ _ hz ht
    have hq2 : (focusNth (max 0 (min index
        (((s.get_focusable_widgets).length : Int) - 1))).toNat
        (clearFirstFocused s.children)).countP (fun w => w.is_focusable) =
        s.children.countP (fun w => w.is_focusable) := by
      rw [focusNth_countQ, clearFirstFocused_countQ]
    constructor
    · intro _
      rw [focusedCount_eq_countP]
      exact hone
    · intro hnil
      exfalso
      have := (focusable_eq_nil_iff _).mp hnil
      rw [hq2] at this
      omega

/-- A screen satisfying the focus invariant has at most one focused
tab-order widget. -/
theorem invariant_at_most_one (s : TUIScreen) (hinv : focus_invariant s) :
    s.children.countP (fun w => w.is_focusable && w.is_focused) ≤ 1 := by
  by_cases hemp : s.get_focusable_widgets = []
  · have h0 : s.children.countP (fun w => w.is_focusable && w.is_focused) = 0 :=
      List.countP_eq_zero.mpr (fun w hw => by simp [hinv.2 hemp w hw])
    omega
  · rw [← focusedCount_eq_countP, hinv.1 hemp]

/-- C8: the screen focus invariant — a non-empty tab order carries exactly
one focused widget and an empty tab order none — holds immediately after
construction (every screen builds its children unfocused and then calls
set_focus_by_index(0)) and is preserved by every focus operation,
set_focus_by_index with any index and move_focus in either direction. -/
theorem screen_focus_invariant_holds :
    (∀ children : List Widget, (∀ w ∈ children, w.is_focused = false) →
      focus_invariant ((TUIScreen.mk children).set_focus_by_index 0)) ∧
    (∀ (s : TUIScreen) (index : Int), focus_invariant s →
      focus_invariant (s.set_focus_by_index index)) ∧
    (∀ (s : TUIScreen) (direction : Int), focus_invariant s →
      focus_invariant (s.move_focus direction)) := by
  refine ⟨?_, ?_, ?_⟩
  · intro children h0
    apply set_focus_by_index_invariant
    · have hzero : children.countP (fun w => w.is_focusable && w.is_focused) = 0 :=
        List.countP_eq_zero.mpr (fun w hw => by simp [h0 w hw])
      show children.countP (fun w => w.is_focusable && w.is_focused) ≤ 1
      omega
    · intro _ w hw
      exact h0 w hw
  · intro s index hinv
    exact set_focus_by_index_invariant s index (invariant_at_most_one s hinv)
      (fun hemp => hinv.2 hemp)
  · intro s direction hinv
    simp only [TUIScreen.move_focus]
    by_cases hemp : s.get_focusable_widgets = []
    · rw [if_pos hemp]
      exact hinv
    · rw [if_neg hemp]
      exact set_focus_by_index_invariant s _ (invariant_at_most_one s hinv)
        (fun h => hinv.2 h)

/-- Witness for C8: the construction clause applied to a concrete one-widget
screen. -/
theorem screen_focus_invariant_holds_witness :
    focus_invariant ((TUIScreen.mk [⟨1, 1, true, false⟩]).set_focus_by_index 0) :=
  screen_focus_invariant_holds.1 [⟨1, 1, true, false⟩] (by decide)

theorem focusNth_zero_find (l : List Widget)
    (h : ∀ w ∈ l, w.is_focusable = true → w.is_focused = false) :
    ((focusNth 0 l).filter (fun w => w.is_focusable)).find? (fun w => w.is_focused) =
      ((l.filter (fun w => w.is_focusable)).head?).map
        (fun w0 => { w0 with is_focused := true }) := by
  induction l with
  | nil => rfl
  | cons w ws ih =>
    simp only [focusNth]
    by_cases hq : w.is_focusable = true
    · rw [if_pos hq]
      simp [List.filter_cons, hq, List.find?_cons_of_pos]
    · rw [if_neg hq]
      simp only [List.filter_cons]
      rw [if_neg hq, if_neg hq]
      exact ih (fun x hx hxq => h x (List.mem_cons_of_mem w hx) hxq)

theorem move_focus_eq_of_none (s : TUIScreen) (direction : Int)
    (hnone : s.get_focused_widget = none) (hne : s.get_focusable_widgets ≠ []) :
    s.move_focus direction = s.set_focus_by_index (if direction = 1 then 0 else -1) := by
  simp only [TUIScreen.move_focus]
  rw [if_neg hne, hnone]

/-- C10: on a screen with focusable widgets but no focused widget,
move_focus in either direction succeeds and focuses the widget at index 0 of
the focusable list (direction -1 passes index -1, which set_focus_by_index
clamps to 0). -/
theorem move_focus_from_no_focus (s : TUIScreen) (direction : Int)
    (hne : s.get_focusable_widgets ≠ [])
    (hnone : s.get_focused_widget = none)
    (hdir : direction = 1 ∨ direction = -1) :
    (s.move_focus direction).get_focused_widget =
      (s.get_focusable_widgets).head?.map (fun w0 => { w0 with is_focused := true }) := by
  have hnone2 : (s.children.filter (fun w => w.is_focusable)).find?
      (fun w => w.is_focused) = none := hnone
  have hall : ∀ w ∈ s.children, w.is_focusable = true → w.is_focused = false := by
    intro w hw hq
    have hmem : w ∈ s.children.filter (fun w => w.is_focusable) :=
      List.mem_filter.mpr ⟨hw, hq⟩
    have hnf := List.find?_eq_none.mp hnone2 w hmem
    simpa using hnf
  have hclear : clearFirstFocused s.children = s.children :=
    clearFirstFocused_id s.children (by
      intro w hw
      cases hq : w.is_focusable
      · simp [hq]
      · simp [hq, hall w hw hq])
  have hlen : 0 < (s.get_focusable_widgets).length := List.length_pos.mpr hne
  have hlen1 : (1 : Int) ≤ ((s.get_focusable_widgets).length : Int) := by
    exact_mod_cast hlen
  rw [move_focus_eq_of_none s direction hnone hne]
  simp only [TUIScreen.set_focus_by_index]
  rw [if_neg hne]
  have hidx : (max 0 (min (if direction = 1 then (0 : Int) else -1)
      (((s.get_focusable_widgets).length : Int) - 1))).toNat = 0 := by
    rcases hdir with rfl | rfl
    · rw [if_pos rfl]
      omega
    · rw [if_neg (by norm_num)]
      omega
  rw [hclear, hidx]
  exact focusNth_zero_find s.children hall

/-- Witness for C10: a concrete two-widget screen with nothing focused, on
move_focus(-1), focuses its first focusable widget. -/
theorem move_focus_from_no_focus_witness :
    ((TUIScreen.mk [⟨1, 1, true, false⟩, ⟨1, 2, true, false⟩]).move_focus
        (-1)).get_focused_widget =
      ((TUIScreen.mk [⟨1, 1, true, false⟩,
        ⟨1, 2, true, false⟩]).get_focusable_widgets).head?.map
        (fun w0 => { w0 with is_focused := true }) :=
  move_focus_from_no_focus (TUIScreen.mk [⟨1, 1, true, false⟩, ⟨1, 2, true, false⟩])
    (-1) (by decide) (by decide) (Or.inr rfl)

/-- Observable side effects of the TodoApp stack operations
(src/lista_de_tarefas.py): terminal calls, persistence, loop exit, and the
synthetic REFRESH signal sent to a screen (screens are identified by
numbers). -/
inductive AppEvent where
  | clearScreen
  | moveCursor
  | showCursor
  | saveDatabase
  | disableRawMode
  | exitApp
  | refreshTo (screen : Nat)
deriving DecidableEq

/-- Navigation-stack state of TodoApp (src/lista_de_tarefas.py); the top of
screen_stack is its last element, and running models whether exit() has been
called. -/
structure TodoApp where
  screen_stack : List Nat
  current_screen : Option Nat
  running : Bool
deriving DecidableEq

/-- TodoApp.quit_app (src/lista_de_tarefas.py, lines 91-103) on the path
where no cleanup call raises: clear the screen, home the cursor, show the
cursor, persist the database, restore the terminal mode, then exit, ending
the run loop. -/
def TodoApp.quit_app (a : TodoApp) : TodoApp × List AppEvent :=
  ({ a with running := false },
   [AppEvent.clearScreen, AppEvent.moveCursor, AppEvent.showCursor,
    AppEvent.saveDatabase, AppEvent.disableRawMode, AppEvent.exitApp])

/-- TodoApp.pop_screen_stack (src/lista_de_tarefas.py, lines 78-89): drop
the top screen; if the stack became empty, quit_app runs, otherwise the new
top becomes the current screen and receives one synthetic REFRESH signal. -/
def TodoApp.pop_screen_stack (a : TodoApp) : TodoApp × List AppEvent :=
  let stack := a.screen_stack.dropLast
  let a1 : TodoApp := { a with screen_stack := stack }
  if h : stack = [] then a1.quit_app
  else
    ({ a1 with current_screen := some (stack.getLast h) },
     [AppEvent.refreshTo (stack.getLast h)])

/-- C7: pop on a one-screen stack runs the shutdown collaborators (persist,
show cursor, restore terminal mode) and terminates the run loop; pop on a
stack of two or more screens removes only the top screen, makes the screen
beneath it current, and delivers exactly one synthetic refresh signal, to
that newly exposed screen. -/
theorem pop_screen_stack_spec :
    (∀ (a : TodoApp) (s : Nat), a.screen_stack = [s] →
      (a.pop_screen_stack).1.running = false ∧
      (a.pop_screen_stack).2 =
        [AppEvent.clearScreen, AppEvent.moveCursor, AppEvent.showCursor,
         AppEvent.saveDatabase, AppEvent.disableRawMode, AppEvent.exitApp]) ∧
    (∀ a : TodoApp, 2 ≤ a.screen_stack.length →
      (a.pop_screen_stack).1.screen_stack = a.screen_stack.dropLast ∧
      (∃ h : a.screen_stack.dropLast ≠ [],
        (a.pop_screen_stack).1.current_screen =
          some (a.screen_stack.dropLast.getLast h) ∧
        (a.pop_screen_stack).2 =
          [AppEvent.refreshTo (a.screen_stack.dropLast.getLast h)]) ∧
      (a.pop_screen_stack).1.running = a.running ∧
      ((a.pop_screen_stack).2.countP (fun e =>
        match e with
        | AppEvent.refreshTo _ => true
        | _ => false)) = 1) := by
  constructor
  · intro a s hstack
    simp [TodoApp.pop_screen_stack, TodoApp.quit_app, hstack]
  · intro a hlen
    have hne : a.screen_stack.dropLast ≠ [] := by
      have : a.screen_stack.dropLast.length = a.screen_stack.length - 1 :=
        List.length_dropLast a.screen_stack
      intro h0
      rw [h0] at this
      simp at this
      omega
    simp only [TodoApp.pop_screen_stack, dif_neg hne]
    refine ⟨?_, ⟨hne, ?_, ?_⟩, ?_, ?_⟩ <;> trivial

/-- Witness for C7: both clauses at concrete stacks [7] and [3, 4]. -/
theorem pop_screen_stack_spec_witness :
    ((TodoApp.mk [7] (some 7) true).pop_screen_stack).1.running = false ∧
    ((TodoApp.mk [3, 4] (some 4) true).pop_screen_stack).1.screen_stack =
      (TodoApp.mk [3, 4] (some 4) true).screen_stack.dropLast :=
  ⟨(pop_screen_stack_spec.1 (TodoApp.mk [7] (some 7) true) 7 rfl).1,
   (pop_screen_stack_spec.2 (TodoApp.mk [3, 4] (some 4) true) (by decide)).1⟩

/-- The cleanup calls made by TodoApp.quit_app, in source order
(src/lista_de_tarefas.py, lines 98-102). -/
inductive CleanupStep where
  | clearScreen
  | moveCursor
  | showCursor
  | saveDatabase
  | disableRawMode
deriving DecidableEq

def quit_app_steps : List CleanupStep :=
  [CleanupStep.clearScreen, CleanupStep.moveCursor, CleanupStep.showCursor,
   CleanupStep.saveDatabase, CleanupStep.disableRawMode]

/-- Straight-line execution of quit_app's cleanup calls under Python
exception semantics.  The body of quit_app has no try/except, so the calls
run in order and an exception escaping one call (fails s = true) aborts the
remaining calls; the failing call itself counts as attempted. -/
def runCleanup (fails : CleanupStep → Bool) : List CleanupStep → List CleanupStep
  | [] => []
  | s :: rest => if fails s then [s] else s :: runCleanup fails rest

/-- The list of cleanup calls that quit_app actually attempts when the calls
fail according to the given predicate. -/
def quit_app_attempted (fails : CleanupStep → Bool) : List CleanupStep :=
  runCleanup fails quit_app_steps

/-- C2 evidence: quit_app does not attempt the cleanup steps independently.
If save_database raises, disable_raw_mode is never attempted (the terminal
stays in raw mode), and if show_cursor raises, neither save_database nor
disable_raw_mode is attempted. -/
theorem quit_app_not_exception_isolated :
    quit_app_attempted (fun s => s == CleanupStep.saveDatabase) =
      [CleanupStep.clearScreen, CleanupStep.moveCursor, CleanupStep.showCursor,
       CleanupStep.saveDatabase] ∧
    CleanupStep.disableRawMode ∉
      quit_app_attempted (fun s => s == CleanupStep.saveDatabase) ∧
    CleanupStep.saveDatabase ∉
      quit_app_attempted (fun s => s == CleanupStep.showCursor) ∧
    CleanupStep.disableRawMode ∉
      quit_app_attempted (fun s => s == CleanupStep.showCursor) := by
  decide

/-- Observable actions taken while a ListSelectionScreen processes one key:
routing the key to the dialog, offering it to the focused widget, the
default navigation actions (directional focus move, TAB cycling, ESC pop),
and the domain effects of button callbacks and the delete dialog. -/
inductive Event where
  | toDialog (key : String)
  | offeredToWidget (key : String)
  | arrowFocusMove
  | tabFocusMove (direction : Int)
  | popStack
  | pushScreen (kind : String)
  | refreshLists
  | confirmDialogOpened
  | alertDialogOpened
  | listRemoved (lista_id : Nat)
deriving DecidableEq

/-- The dialog hosted by ListSelectionScreen: a ConfirmationDialog
(src/libtui.py, lines 1170-1252) whose callbacks are
_perform_actual_delete/_cancel_delete, carrying its focus_index
(0 = Confirmar, 1 = Cancelar), or an AlertDialog (src/libtui.py, lines
1254-1312) whose on_dismiss is _cancel_delete. -/
inductive LSDialog where
  | confirmation (focus_index : Int)
  | alert
deriving DecidableEq

/-- GerenciadorTarefas.remover_lista_de_tarefas (src/libgerenciador.py,
lines 130-135), with task lists represented by their ids: removing is
refused while at most one list exists, otherwise the list with the given id
is filtered out. -/
def remover_lista_de_tarefas (listas : List Nat) (lista_id : Nat) : List Nat :=
  if listas.length ≤ 1 then listas
  else listas.filter (fun l => l != lista_id)

/-- State of ListSelectionScreen (src/listselectionscreen.py).  The task
manager's lists are their ids (listas); lw is the VerticalList widget, whose
label children positionally carry the list ids (lw_items, embedding the
task_list_obj attribute attached in refresh_lists); buttons_focused holds
the is_focused flags of the five buttons in tab order; term_lines is the
terminal height used for the button row geometry. -/
structure ListSelectionScreen where
  term_lines : Int
  listas : List Nat
  lw : VerticalList
  lw_items : List Nat
  buttons_focused : List Bool
  dialog : Option LSDialog
deriving DecidableEq

/-- ListSelectionScreen.get_focusable_widgets (src/listselectionscreen.py,
lines 159-167): the fixed tab order [list_widget, view_list_button,
view_all_button, create_list_button, edit_list_button, search_button], with
the geometry given in __init__ (list at (3,3), buttons at y = height-5 and
x = 3, 17, 31, 47, 64). -/
def ListSelectionScreen.get_focusable_widgets (s : ListSelectionScreen) : List Widget :=
  ⟨3, 3, true, s.lw.is_focused⟩ ::
    List.zipWith (fun (x : Int) (b : Bool) => (⟨x, s.term_lines - 5, true, b⟩ : Widget))
      [3, 17, 31, 47, 64] s.buttons_focused

/-- Write-back of the is_focused flags that the base-class focus operations
mutate through the shared widget objects: entry 0 of the widget list is the
list widget, the rest are the buttons. -/
def ListSelectionScreen.withWidgets (s : ListSelectionScreen) (ws : List Widget) :
    ListSelectionScreen :=
  { s with
      lw := { s.lw with is_focused := (ws.getD 0 ⟨0, 0, false, false⟩).is_focused },
      buttons_focused := (ws.drop 1).map (fun w => w.is_focused) }

/-- ListSelectionScreen.get_selected_list_obj (src/listselectionscreen.py,
lines 138-147): None when the list widget is empty, otherwise the list
object attached to the selected label. -/
def ListSelectionScreen.get_selected_list_obj (s : ListSelectionScreen) : Option Nat :=
  if s.lw.children = [] then none
  else s.lw_items.get? s.lw.focus_index.toNat

/-- ListSelectionScreen.refresh_lists (src/listselectionscreen.py, lines
149-157): clear the list widget and repopulate it with one label per task
list, each carrying its list object. -/
def ListSelectionScreen.refresh_lists (s : ListSelectionScreen) : ListSelectionScreen :=
  { s with
      lw := { s.lw with children := s.listas.map (fun _ => ⟨1, 1, false, false⟩) },
      lw_items := s.listas }

/-- ListSelectionScreen._perform_actual_delete (src/listselectionscreen.py,
lines 88-93): remove the selected list if any, refresh, and close the
dialog. -/
def ListSelectionScreen.perform_actual_delete (s : ListSelectionScreen) :
    ListSelectionScreen × List Event :=
  match s.get_selected_list_obj with
  | some sel =>
    let s1 := { s with listas := remover_lista_de_tarefas s.listas sel }
    let s2 := s1.refresh_lists
    ({ s2 with dialog := none }, [Event.listRemoved sel, Event.refreshLists])
  | none => ({ s with dialog := none }, [])

/-- ListSelectionScreen.delete_selected_list (src/listselectionscreen.py,
lines 63-81): no-op without a selection; an AlertDialog when only one list
is left; otherwise a ConfirmationDialog. -/
def ListSelectionScreen.delete_selected_list (s : ListSelectionScreen) :
    ListSelectionScreen × List Event :=
  match s.get_selected_list_obj with
  | none => (s, [])
  | some _ =>
    if s.listas.length ≤ 1 then
      ({ s with dialog := some LSDialog.alert }, [Event.alertDialogOpened])
    else
      ({ s with dialog := some (LSDialog.confirmation 0) }, [Event.confirmDialogOpened])

/-- ConfirmationDialog.process_input (src/libtui.py, lines 1227-1252) with
this screen's callbacks: LEFT/RIGHT/TAB toggle the dialog focus, ENTER runs
confirm (_perform_actual_delete) or cancel, ESC cancels, and every key is
consumed by the dialog. -/
def ListSelectionScreen.confirmation_process_input (s : ListSelectionScreen)
    (fi : Int) (key : String) : ListSelectionScreen × List Event :=
  if key = Keys.LEFT ∨ key = Keys.RIGHT ∨ key = Keys.TAB then
    ({ s with dialog := some (LSDialog.confirmation (1 - fi)) }, [])
  else if key = Keys.ENTER then
    if fi = 0 then s.perform_actual_delete
    else ({ s with dialog := none }, [])
  else if key = Keys.ESC then ({ s with dialog := none }, [])
  else (s, [])

/-- AlertDialog.process_input (src/libtui.py, lines 1299-1312) with this
screen's on_dismiss (_cancel_delete): ENTER/ESC/SPACE dismiss, every key is
consumed. -/
def ListSelectionScreen.alert_process_input (s : ListSelectionScreen) (key : String) :
    ListSelectionScreen × List Event :=
  if key = Keys.ENTER ∨ key = Keys.ESC ∨ key = Keys.SPACE then
    ({ s with dialog := none }, [])
  else (s, [])

/-- The position of the focused widget in this screen's tab order: the first
widget whose is_focused flag is set, as found by
TUIScreen.get_focused_widget over the overridden focusable list. -/
def ListSelectionScreen.focused_index (s : ListSelectionScreen) : Option Nat :=
  (s.get_focusable_widgets).findIdx? (fun w => w.is_focused)

/-- Dispatch of a key to the focused widget of this screen, with the
widget's truthiness result: index 0 is the VerticalList
(VerticalList.process_input); indices 1-5 are the Buttons
(Button.process_input, src/libtui.py lines 502-519), whose ENTER callbacks
are view_selected_list_tasks, view_all_tasks, create_new_list,
edit_selected_list and search_tasks (src/listselectionscreen.py). -/
def ListSelectionScreen.widget_step (s : ListSelectionScreen) (i : Nat) (key : String) :
    ListSelectionScreen × Bool × List Event :=
  if i = 0 then
    let r := s.lw.process_input key
    ({ s with lw := r.1 }, r.2, [])
  else if i = 1 then
    if key = Keys.ENTER then
      (s, true,
        match s.get_selected_list_obj with
        | some _ => [Event.pushScreen "FILTER_OPTIONS"]
        | none => [])
    else (s, false, [])
  else if i = 2 then
    if key = Keys.ENTER then (s, true, [Event.pushScreen "FILTER_OPTIONS"])
    else (s, false, [])
  else if i = 3 then
    if key = Keys.ENTER then (s, true, [Event.pushScreen "CREATELIST"])
    else (s, false, [])
  else if i = 4 then
    if key = Keys.ENTER then
      (s, true,
        match s.get_selected_list_obj with
        | some _ => [Event.pushScreen "EDIT_LIST"]
        | none => [])
    else (s, false, [])
  else
    if key = Keys.ENTER then (s, true, [Event.pushScreen "SEARCH_INPUT"])
    else (s, false, [])

/-- Steps 2-4 of TUIScreen.process_input (src/libtui.py, lines 234-252)
specialized to this screen: directional navigation on an arrow key, then
TAB/SHIFT_TAB focus cycling, then ESC popping the navigation stack. -/
def ListSelectionScreen.navigation_fallthrough (s : ListSelectionScreen) (key : String) :
    ListSelectionScreen × List Event :=
  let arrow :=
    if key = Keys.UP ∨ key = Keys.DOWN ∨ key = Keys.LEFT ∨ key = Keys.RIGHT then
      match (TUIScreen.mk s.get_focusable_widgets).find_next_widget_in_direction key with
      | some nw =>
        match (s.get_focusable_widgets).indexOf? nw with
        | some idx =>
          (s.withWidgets (((TUIScreen.mk s.get_focusable_widgets).set_focus_by_index
            (idx : Int)).children), [Event.arrowFocusMove])
        | none => (s, [])
      | none => (s, [])
    else (s, [])
  let s2 := arrow.1
  if key = Keys.TAB then
    (s2.withWidgets (((TUIScreen.mk s2.get_focusable_widgets).move_focus 1).children),
     arrow.2 ++ [Event.tabFocusMove 1])
  else if key = Keys.SHIFT_TAB then
    (s2.withWidgets (((TUIScreen.mk s2.get_focusable_widgets).move_focus (-1)).children),
     arrow.2 ++ [Event.tabFocusMove (-1)])
  else if key = Keys.ESC then (s2, arrow.2 ++ [Event.popStack])
  else (s2, arrow.2)

/-- TUIScreen.process_input (src/libtui.py, lines 216-252) specialized to
this screen, reached through super() when no dialog is hosted: offer the key
to the focused widget and stop if it is consumed, otherwise fall through to
the default navigation. -/
def ListSelectionScreen.tui_process_input (s : ListSelectionScreen) (key : String) :
    ListSelectionScreen × List Event :=
  match s.focused_index with
  | some i =>
    let r := s.widget_step i key
    if r.2.1 then (r.1, Event.offeredToWidget key :: r.2.2)
    else
      let cont := r.1.navigation_fallthrough key
      (cont.1, Event.offeredToWidget key :: r.2.2 ++ cont.2)
  | none => s.navigation_fallthrough key

/-- ListSelectionScreen.process_input (src/listselectionscreen.py, lines
95-110): a hosted dialog receives every key and the method returns at once;
otherwise REFRESH reloads the lists, DELETE opens the delete dialog and, as
in the source, still falls through to the base-class handling. -/
def ListSelectionScreen.process_input (s : ListSelectionScreen) (key : String) :
    ListSelectionScreen × List Event :=
  match s.dialog with
  | some (LSDialog.confirmation fi) =>
    let r := s.confirmation_process_input fi key
    (r.1, Event.toDialog key :: r.2)
  | some LSDialog.alert =>
    let r := s.alert_process_input key
    (r.1, Event.toDialog key :: r.2)
  | none =>
    if key = "REFRESH" then (s.refresh_lists, [Event.refreshLists])
    else
      let d := if key = Keys.DELETE then s.delete_selected_list else (s, [])
      let r := d.1.tui_process_input key
      (r.1, d.2 ++ r.2)

theorem perform_actual_delete_fields (s : ListSelectionScreen) :
    (s.perform_actual_delete).1.lw.is_focused = s.lw.is_focused ∧
    (s.perform_actual_delete).1.buttons_focused = s.buttons_focused ∧
    ∀ e ∈ (s.perform_actual_delete).2,
      (∃ ix, e = Event.listRemoved ix) ∨ e = Event.refreshLists := by
  unfold ListSelectionScreen.perform_actual_delete
  cases hsel : s.get_selected_list_obj with
  | some sel =>
    refine ⟨rfl, rfl, ?_⟩
    intro e he
    rcases List.mem_cons.mp he with rfl | he
    · exact Or.inl ⟨sel, rfl⟩
    · rw [List.mem_singleton] at he
      exact Or.inr he
  | none =>
    exact ⟨rfl, rfl, by simp⟩

theorem no_default_of_safe (l : List Event)
    (h : ∀ e ∈ l, (∃ k, e = Event.toDialog k) ∨ (∃ ix, e = Event.listRemoved ix) ∨
      e = Event.refreshLists) :
    (∀ k, Event.offeredToWidget k ∉ l) ∧ Event.arrowFocusMove ∉ l ∧
    (∀ i, Event.tabFocusMove i ∉ l) ∧ Event.popStack ∉ l := by
  refine ⟨?_, ?_, ?_, ?_⟩
  · intro k hk
    rcases h _ hk with ⟨k2, he⟩ | ⟨ix, he⟩ | he <;> simp at he
  · intro hk
    rcases h _ hk with ⟨k2, he⟩ | ⟨ix, he⟩ | he <;> simp at he
  · intro i hk
    rcases h _ hk with ⟨k2, he⟩ | ⟨ix, he⟩ | he <;> simp at he
  · intro hk
    rcases h _ hk with ⟨k2, he⟩ | ⟨ix, he⟩ | he <;> simp at he

/-- C5: while ListSelectionScreen hosts a dialog, every key delivered to the
screen is routed to the dialog and none of the screen's default handling
executes: the key is never offered to the focused widget, no
directional-arrow focus move and no TAB/SHIFT_TAB focus cycling occurs (the
tab-order focus flags are untouched), and ESC never pops the navigation
stack. -/
theorem dialog_captures_all_input (s : ListSelectionScreen) (key : String)
    (d : LSDialog) (hd : s.dialog = some d) :
    ((s.process_input key).2.head? = some (Event.toDialog key)) ∧
    (∀ k, Event.offeredToWidget k ∉ (s.process_input key).2) ∧
    Event.arrowFocusMove ∉ (s.process_input key).2 ∧
    (∀ i, Event.tabFocusMove i ∉ (s.process_input key).2) ∧
    Event.popStack ∉ (s.process_input key).2 ∧
    (s.process_input key).1.lw.is_focused = s.lw.is_focused ∧
    (s.process_input key).1.buttons_focused = s.buttons_focused := by
  have hsafe1 : ∀ e ∈ [Event.toDialog key],
      (∃ k, e = Event.toDialog k) ∨ (∃ ix, e = Event.listRemoved ix) ∨
        e = Event.refreshLists := by
    intro e he
    rw [List.mem_singleton] at he
    exact Or.inl ⟨key, he⟩
  rcases d with fi | _
  · have hstep : s.process_input key =
        ((s.confirmation_process_input fi key).1,
          Event.toDialog key :: (s.confirmation_process_input fi key).2) := by
      unfold ListSelectionScreen.process_input
      rw [hd]
    rw [hstep]
    unfold ListSelectionScreen.confirmation_process_input
    split_ifs with h1 h2 h3 h4
    · obtain ⟨ha, hb, hc, he⟩ := no_default_of_safe _ hsafe1
      exact ⟨rfl, ha, hb, hc, he, rfl, rfl⟩
    · obtain ⟨hf1, hf2, hev⟩ := perform_actual_delete_fields s
      have hsafe2 : ∀ e ∈ Event.toDialog key :: (s.perform_actual_delete).2,
          (∃ k, e = Event.toDialog k) ∨ (∃ ix, e = Event.listRemoved ix) ∨
            e = Event.refreshLists := by
        intro e he
        rcases List.mem_cons.mp he with rfl | he
        · exact Or.inl ⟨key, rfl⟩
        · rcases hev e he with ⟨ix, hix⟩ | hix
          · exact Or.inr (Or.inl ⟨ix, hix⟩)
          · exact Or.inr (Or.inr hix)
      obtain ⟨ha, hb, hc, he⟩ := no_default_of_safe _ hsafe2
      exact ⟨rfl, ha, hb, hc, he, hf1, hf2⟩
    · obtain ⟨ha, hb, hc, he⟩ := no_default_of_safe _ hsafe1
      exact ⟨rfl, ha, hb, hc, he, rfl, rfl⟩
    · obtain ⟨ha, hb, hc, he⟩ := no_default_of_safe _ hsafe1
      exact ⟨rfl, ha, hb, hc, he, rfl, rfl⟩
    · obtain ⟨ha, hb, hc, he⟩ := no_default_of_safe _ hsafe1
      exact ⟨rfl, ha, hb, hc, he, rfl, rfl⟩
  · have hstep : s.process_input key =
        ((s.alert_process_input key).1,
          Event.toDialog key :: (s.alert_process_input key).2) := by
      unfold ListSelectionScreen.process_input
      rw [hd]
    rw [hstep]
    unfold ListSelectionScreen.alert_process_input
    split_ifs with h1
    · obtain ⟨ha, hb, hc, he⟩ := no_default_of_safe _ hsafe1
      exact ⟨rfl, ha, hb, hc, he, rfl, rfl⟩
    · obtain ⟨ha, hb, hc, he⟩ := no_default_of_safe _ hsafe1
      exact ⟨rfl, ha, hb, hc, he, rfl, rfl⟩

/-- A concrete ListSelectionScreen hosting a delete-confirmation dialog,
used to witness the dialog-routing theorem. -/
def demo_ls : ListSelectionScreen :=
  ⟨24, [1, 2], ⟨5, [⟨1, 1, false, false⟩, ⟨1, 1, false, false⟩], 0, 0, true⟩, [1, 2],
   [false, false, false, false, false], some (LSDialog.confirmation 0)⟩

/-- Witness for C5: on the concrete dialog-hosting screen, ESC is routed to
the dialog, no default handling runs and no pop occurs. -/
theorem dialog_captures_all_input_witness :
    ((demo_ls.process_input Keys.ESC).2.head? = some (Event.toDialog Keys.ESC)) ∧
    (∀ k, Event.offeredToWidget k ∉ (demo_ls.process_input Keys.ESC).2) ∧
    Event.arrowFocusMove ∉ (demo_ls.process_input Keys.ESC).2 ∧
    (∀ i, Event.tabFocusMove i ∉ (demo_ls.process_input Keys.ESC).2) ∧
    Event.popStack ∉ (demo_ls.process_input Keys.ESC).2 ∧
    (demo_ls.process_input Keys.ESC).1.lw.is_focused = demo_ls.lw.is_focused ∧
    (demo_ls.process_input Keys.ESC).1.buttons_focused = demo_ls.buttons_focused :=
  dialog_captures_all_input demo_ls Keys.ESC (LSDialog.confirmation 0) rfl

end Spec2Proof
